import Mathlib

/-!
Verification of the render-pass description and compatibility subsystem
(`src/vulkano/src/framebuffer/traits.rs`).

The descriptor trait `RenderPassDesc` promises that `attachment(n)` /
`subpass(n)` return `Some` exactly for indices below the reported counts, so a
lawful implementation is extensionally a triple of finite sequences.  We embed
a descriptor as that triple of lists and translate the trait's provided
methods (the derived queries) directly from the Rust source.  Runtime panics
(`expect` on the iterators, `unwrap` on attachment lookups, `unreachable!` on
an unexpected format class) are made explicit with an `Except` result.
-/

namespace Vulkano

/-- Modelled from the spec: the format classes distinguished by the code
(`format::FormatTy` lives outside the excerpt); the derived queries only
inspect whether a format is depth, stencil, depth-stencil, or something
else. -/
inductive FormatTy
  | float
  | uint
  | sint
  | depth
  | stencil
  | depthStencil
  | compressed
deriving DecidableEq, Repr

/-- Modelled from the spec: a pixel format (`format::Format` lives outside the
excerpt).  Two formats are equal exactly when they are the same enum variant;
we keep a numeric code for identity plus the format class returned by
`Format::ty()`. -/
structure Format where
  code : Nat
  ty : FormatTy
deriving DecidableEq, Repr

/-- Modelled from the spec: image layouts (`image::Layout` lives outside the
excerpt).  The queries only compare layouts for equality and single out
`DepthStencilReadOnlyOptimal`. -/
inductive ImageLayout
  | Undefined
  | General
  | ColorAttachmentOptimal
  | DepthStencilAttachmentOptimal
  | DepthStencilReadOnlyOptimal
  | ShaderReadOnlyOptimal
  | TransferSrcOptimal
  | TransferDstOptimal
  | Preinitialised
  | PresentSrc
deriving DecidableEq, Repr

/-- What to do with an attachment at the start of the subpass. -/
inductive LoadOp
  | Load
  | Clear
  | DontCare
deriving DecidableEq, Repr

/-- What to do with an attachment after all the subpasses have completed. -/
inductive StoreOp
  | Store
  | DontCare
deriving DecidableEq, Repr

/-- Describes an attachment that will be used in a render pass
(`LayoutAttachmentDescription`). -/
structure LayoutAttachmentDescription where
  format : Format
  samples : Nat
  load : LoadOp
  store : StoreOp
  initial_layout : ImageLayout
  final_layout : ImageLayout
deriving DecidableEq, Repr

/-- Attachment-level compatibility, as in the source: the formats and the
sample counts must agree. -/
def LayoutAttachmentDescription.is_compatible_with
    (a b : LayoutAttachmentDescription) : Bool :=
  decide (a.format = b.format) && decide (a.samples = b.samples)

/-- Describes one of the passes of a render pass (`LayoutPassDescription`).
Attachment references are pairs of an attachment index and the layout the
attachment must be in. -/
structure LayoutPassDescription where
  color_attachments : List (Nat × ImageLayout)
  depth_stencil : Option (Nat × ImageLayout)
  input_attachments : List (Nat × ImageLayout)
  resolve_attachments : List (Nat × ImageLayout)
  preserve_attachments : List Nat
deriving DecidableEq, Repr

/-- Describes a dependency between two passes
(`LayoutPassDependencyDescription`); the stage and access masks live outside
the excerpt and no derived query reads them, so only the structural fields
are kept. -/
structure LayoutPassDependencyDescription where
  source_subpass : Nat
  destination_subpass : Nat
  by_region : Bool
deriving DecidableEq, Repr

/-- A lawful implementation of the `RenderPassDesc` trait: `attachment(n)`
and `subpass(n)` return `Some` exactly below the reported counts, which makes
the descriptor extensionally a triple of lists. -/
structure RenderPassDesc where
  attachments : List LayoutAttachmentDescription
  subpasses : List LayoutPassDescription
  dependencies : List LayoutPassDependencyDescription
deriving DecidableEq, Repr

/-- Trait accessor `num_attachments`. -/
def RenderPassDesc.num_attachments (d : RenderPassDesc) : Nat :=
  d.attachments.length

/-- Trait accessor `attachment(num)`: `None` for out-of-range indices. -/
def RenderPassDesc.attachment (d : RenderPassDesc) (num : Nat) :
    Option LayoutAttachmentDescription :=
  d.attachments[num]?

/-- Trait accessor `num_subpasses`. -/
def RenderPassDesc.num_subpasses (d : RenderPassDesc) : Nat :=
  d.subpasses.length

/-- Trait accessor `subpass(num)`: `None` for out-of-range indices. -/
def RenderPassDesc.subpass (d : RenderPassDesc) (num : Nat) :
    Option LayoutPassDescription :=
  d.subpasses[num]?

/-- Trait accessor `num_dependencies`. -/
def RenderPassDesc.num_dependencies (d : RenderPassDesc) : Nat :=
  d.dependencies.length

/-- Trait accessor `dependency(num)`: `None` for out-of-range indices. -/
def RenderPassDesc.dependency (d : RenderPassDesc) (num : Nat) :
    Option LayoutPassDependencyDescription :=
  d.dependencies[num]?

/-- The ways the derived queries can panic at runtime: the iterators'
`expect("Wrong RenderPassDesc implementation")`, an `unwrap()` on a `None`
attachment lookup, and the `unreachable!()` arm on a format class that is
neither depth, stencil, nor depth-stencil. -/
inductive QueryPanic
  | wrongImpl
  | unwrapNone
  | unreachableFormat
deriving DecidableEq, Repr

/-- Result of a computation that may panic. -/
abbrev QRes (β : Type) := Except QueryPanic β

/-- The value of `attachments().skip(k).next()`: the iterator yields
`attachment(n).expect(..)` while `n < num_attachments()`, so the `k`-th
element is `attachment(k)` when `k` is in range and the iterator is exhausted
otherwise.  The `expect` fires only when an in-range `attachment(n)` is
`None`, which cannot happen for a lawful (list-backed) descriptor but is kept
explicit. -/
def RenderPassDesc.attachmentsNth (d : RenderPassDesc) (k : Nat) :
    QRes (Option LayoutAttachmentDescription) :=
  if k < d.num_attachments then
    match d.attachment k with
    | some a => .ok (some a)
    | none => .error .wrongImpl
  else
    .ok none

/-- The value of `subpasses().skip(k).next()`, in the same way. -/
def RenderPassDesc.subpassesNth (d : RenderPassDesc) (k : Nat) :
    QRes (Option LayoutPassDescription) :=
  if k < d.num_subpasses then
    match d.subpass k with
    | some p => .ok (some p)
    | none => .error .wrongImpl
  else
    .ok none

/-- Derived query `num_color_attachments(subpass)`: the length of the
subpass's `color_attachments`, `None` when the subpass index is out of
range. -/
def RenderPassDesc.num_color_attachments (d : RenderPassDesc) (subpass : Nat) :
    QRes (Option Nat) :=
  match d.subpassesNth subpass with
  | .error e => .error e
  | .ok none => .ok none
  | .ok (some p) => .ok (some p.color_attachments.length)

/-- The `filter_map(|a| attachments().skip(a.0).next()).next()` step of
`num_samples`: walk the attachment references in order and return the first
lookup that succeeds, silently skipping references whose lookup yields
`None`. -/
def RenderPassDesc.firstExistingAttachment (d : RenderPassDesc) :
    List (Nat × ImageLayout) → QRes (Option LayoutAttachmentDescription)
  | [] => .ok none
  | a :: rest =>
    match d.attachmentsNth a.fst with
    | .error e => .error e
    | .ok (some att) => .ok (some att)
    | .ok none => d.firstExistingAttachment rest

/-- Derived query `num_samples(subpass)`: the color attachment references
chained with the depth/stencil reference are looked up in order and the first
attachment found supplies the sample count; `None` when the subpass index is
out of range or no attachment is found. -/
def RenderPassDesc.num_samples (d : RenderPassDesc) (subpass : Nat) :
    QRes (Option Nat) :=
  match d.subpassesNth subpass with
  | .error e => .error e
  | .ok none => .ok none
  | .ok (some p) =>
    match d.firstExistingAttachment (p.color_attachments ++ p.depth_stencil.toList) with
    | .error e => .error e
    | .ok none => .ok none
    | .ok (some att) => .ok (some att.samples)

/-- Derived query `has_depth_stencil_attachment(subpass)`: `(false, false)`
without a depth/stencil slot, otherwise the pair determined by the referenced
attachment's format class; the lookup is `unwrap`ped and other format classes
hit `unreachable!()`. -/
def RenderPassDesc.has_depth_stencil_attachment (d : RenderPassDesc)
    (subpass : Nat) : QRes (Option (Bool × Bool)) :=
  match d.subpassesNth subpass with
  | .error e => .error e
  | .ok none => .ok none
  | .ok (some p) =>
    match p.depth_stencil with
    | none => .ok (some (false, false))
    | some (atch_num, _) =>
      match d.attachmentsNth atch_num with
      | .error e => .error e
      | .ok none => .error .unwrapNone
      | .ok (some att) =>
        match att.format.ty with
        | .depth => .ok (some (true, false))
        | .stencil => .ok (some (false, true))
        | .depthStencil => .ok (some (true, true))
        | _ => .error .unreachableFormat

/-- Derived query `has_depth(subpass)`. -/
def RenderPassDesc.has_depth (d : RenderPassDesc) (subpass : Nat) :
    QRes (Option Bool) :=
  match d.subpassesNth subpass with
  | .error e => .error e
  | .ok none => .ok none
  | .ok (some p) =>
    match p.depth_stencil with
    | none => .ok (some false)
    | some (atch_num, _) =>
      match d.attachmentsNth atch_num with
      | .error e => .error e
      | .ok none => .error .unwrapNone
      | .ok (some att) =>
        match att.format.ty with
        | .depth => .ok (some true)
        | .stencil => .ok (some false)
        | .depthStencil => .ok (some true)
        | _ => .error .unreachableFormat

/-- Derived query `has_writable_depth(subpass)`: as `has_depth`, but `false`
as soon as the slot's layout is `DepthStencilReadOnlyOptimal` (before any
attachment lookup). -/
def RenderPassDesc.has_writable_depth (d : RenderPassDesc) (subpass : Nat) :
    QRes (Option Bool) :=
  match d.subpassesNth subpass with
  | .error e => .error e
  | .ok none => .ok none
  | .ok (some p) =>
    match p.depth_stencil with
    | none => .ok (some false)
    | some (atch_num, l) =>
      if l = ImageLayout.DepthStencilReadOnlyOptimal then .ok (some false)
      else
        match d.attachmentsNth atch_num with
        | .error e => .error e
        | .ok none => .error .unwrapNone
        | .ok (some att) =>
          match att.format.ty with
          | .depth => .ok (some true)
          | .stencil => .ok (some false)
          | .depthStencil => .ok (some true)
          | _ => .error .unreachableFormat

/-- Derived query `has_stencil(subpass)`. -/
def RenderPassDesc.has_stencil (d : RenderPassDesc) (subpass : Nat) :
    QRes (Option Bool) :=
  match d.subpassesNth subpass with
  | .error e => .error e
  | .ok none => .ok none
  | .ok (some p) =>
    match p.depth_stencil with
    | none => .ok (some false)
    | some (atch_num, _) =>
      match d.attachmentsNth atch_num with
      | .error e => .error e
      | .ok none => .error .unwrapNone
      | .ok (some att) =>
        match att.format.ty with
        | .depth => .ok (some false)
        | .stencil => .ok (some true)
        | .depthStencil => .ok (some true)
        | _ => .error .unreachableFormat

/-- Derived query `has_writable_stencil(subpass)`: as `has_stencil`, but
`false` as soon as the slot's layout is `DepthStencilReadOnlyOptimal`. -/
def RenderPassDesc.has_writable_stencil (d : RenderPassDesc) (subpass : Nat) :
    QRes (Option Bool) :=
  match d.subpassesNth subpass with
  | .error e => .error e
  | .ok none => .ok none
  | .ok (some p) =>
    match p.depth_stencil with
    | none => .ok (some false)
    | some (atch_num, l) =>
      if l = ImageLayout.DepthStencilReadOnlyOptimal then .ok (some false)
      else
        match d.attachmentsNth atch_num with
        | .error e => .error e
        | .ok none => .error .unwrapNone
        | .ok (some att) =>
          match att.format.ty with
          | .depth => .ok (some false)
          | .stencil => .ok (some true)
          | .depthStencil => .ok (some true)
          | _ => .error .unreachableFormat

/-- Modelled from the spec: one entry of a shader interface definition
(`pipeline::shader::ShaderInterfaceDef` lives outside the excerpt): an
ordered sequence of entries, each declaring a half-open range of locations
and a format.  The compatibility check only reads the locations. -/
structure ShaderInterfaceEntry where
  locationStart : Nat
  locationEnd : Nat
  format : Format
deriving DecidableEq, Repr

/-- The locations declared by one entry: the half-open range
`locationStart..locationEnd`. -/
def ShaderInterfaceEntry.locations (e : ShaderInterfaceEntry) : List Nat :=
  List.range' e.locationStart (e.locationEnd - e.locationStart)

/-- All locations declared by a shader interface, in declaration order. -/
def declaredLocations (elements : List ShaderInterfaceEntry) : List Nat :=
  elements.flatMap ShaderInterfaceEntry.locations

/-- The location loop of `RenderPassSubpassInterface::is_compatible_with`:
for each declared location, `color_attachments.get(location)` must produce a
slot (`false` otherwise), and the slot's attachment is looked up with an
`unwrap()`; the format comparison against the shader element is commented out
in the source. -/
def checkLocations (d : RenderPassDesc) (p : LayoutPassDescription) :
    List Nat → QRes Bool
  | [] => .ok true
  | loc :: rest =>
    match p.color_attachments[loc]? with
    | none => .ok false
    | some a =>
      match d.attachmentsNth a.fst with
      | .error e => .error e
      | .ok none => .error .unwrapNone
      | .ok (some _) => checkLocations d p rest

/-- `RenderPassSubpassInterface::is_compatible_with(subpass, other)`:
`false` when the subpass index is out of range, otherwise the location
loop over the shader interface's declared output locations. -/
def RenderPassDesc.subpass_is_compatible_with (d : RenderPassDesc)
    (subpass : Nat) (other : List ShaderInterfaceEntry) : QRes Bool :=
  match d.subpassesNth subpass with
  | .error e => .error e
  | .ok none => .ok false
  | .ok (some p) => checkLocations d p (declaredLocations other)

/-- `RenderPassCompatible::is_compatible_with(other)` exactly as the source
has it: the attachment-pairing loop is commented out behind a `FIXME` and the
body is `return true;` unconditionally. -/
def RenderPassDesc.is_compatible_with (_a _b : RenderPassDesc) : Bool :=
  true

/-- A subpass handle: a render pass together with a subpass index
(`Subpass<L>`, instantiated at the descriptor). -/
structure Subpass where
  render_pass : RenderPassDesc
  subpass_id : Nat
deriving DecidableEq, Repr

/-- `Subpass::from(render_pass, id)`: `Some` handle exactly when `id` is
below the number of subpasses. -/
def Subpass.from_ (render_pass : RenderPassDesc) (id : Nat) : Option Subpass :=
  if id < render_pass.num_subpasses then
    some { render_pass := render_pass, subpass_id := id }
  else
    none

/-- `Subpass::index()`. -/
def Subpass.index (s : Subpass) : Nat :=
  s.subpass_id

/-- The `Into<(L, u32)>` conversion. -/
def Subpass.into (s : Subpass) : RenderPassDesc × Nat :=
  (s.render_pass, s.subpass_id)

/-- The `.unwrap()` applied by the handle accessors to the descriptor's
`Option` results. -/
def unwrapQ {β : Type} : QRes (Option β) → QRes β
  | .error e => .error e
  | .ok none => .error .unwrapNone
  | .ok (some b) => .ok b

/-- `Subpass::num_color_attachments()`. -/
def Subpass.num_color_attachments (s : Subpass) : QRes Nat :=
  unwrapQ (s.render_pass.num_color_attachments s.subpass_id)

/-- `Subpass::has_depth()`. -/
def Subpass.has_depth (s : Subpass) : QRes Bool :=
  unwrapQ (s.render_pass.has_depth s.subpass_id)

/-- `Subpass::has_writable_depth()`. -/
def Subpass.has_writable_depth (s : Subpass) : QRes Bool :=
  unwrapQ (s.render_pass.has_writable_depth s.subpass_id)

/-- `Subpass::has_stencil()`. -/
def Subpass.has_stencil (s : Subpass) : QRes Bool :=
  unwrapQ (s.render_pass.has_stencil s.subpass_id)

/-- `Subpass::has_writable_stencil()`. -/
def Subpass.has_writable_stencil (s : Subpass) : QRes Bool :=
  unwrapQ (s.render_pass.has_writable_stencil s.subpass_id)

/-- `Subpass::has_color_or_depth_stencil_attachment()`: the `||` of the
source short-circuits, so the depth/stencil query is only unwrapped when the
color-attachment count is zero. -/
def Subpass.has_color_or_depth_stencil_attachment (s : Subpass) : QRes Bool :=
  match s.num_color_attachments with
  | .error e => .error e
  | .ok n =>
    if n ≥ 1 then .ok true
    else
      match unwrapQ (s.render_pass.has_depth_stencil_attachment s.subpass_id) with
      | .error e => .error e
      | .ok pr => .ok (decide (pr ≠ (false, false)))

/-- `Subpass::num_samples()`. -/
def Subpass.num_samples (s : Subpass) : QRes (Option Nat) :=
  s.render_pass.num_samples s.subpass_id

/-! Basic lemmas about the iterator steps. -/

theorem attachmentsNth_eq (d : RenderPassDesc) (k : Nat) :
    d.attachmentsNth k = .ok d.attachments[k]? := by
  unfold RenderPassDesc.attachmentsNth RenderPassDesc.attachment
      RenderPassDesc.num_attachments
  rcases Nat.lt_or_ge k d.attachments.length with h | h
  · obtain ⟨a, ha⟩ : ∃ a, d.attachments[k]? = some a :=
      ⟨_, List.getElem?_eq_getElem h⟩
    simp [h, ha]
  · have hn : d.attachments[k]? = none := List.getElem?_eq_none h
    simp [Nat.not_lt.mpr h, hn]

theorem subpassesNth_eq (d : RenderPassDesc) (k : Nat) :
    d.subpassesNth k = .ok d.subpasses[k]? := by
  unfold RenderPassDesc.subpassesNth RenderPassDesc.subpass
      RenderPassDesc.num_subpasses
  rcases Nat.lt_or_ge k d.subpasses.length with h | h
  · obtain ⟨p, hp⟩ : ∃ p, d.subpasses[k]? = some p :=
      ⟨_, List.getElem?_eq_getElem h⟩
    simp [h, hp]
  · have hn : d.subpasses[k]? = none := List.getElem?_eq_none h
    simp [Nat.not_lt.mpr h, hn]

theorem firstExistingAttachment_isOk (d : RenderPassDesc)
    (refs : List (Nat × ImageLayout)) :
    ∃ r, d.firstExistingAttachment refs = .ok r := by
  induction refs with
  | nil => exact ⟨none, rfl⟩
  | cons a rest ih =>
    obtain ⟨r, hr⟩ := ih
    cases hga : d.attachments[a.fst]? with
    | none =>
      exact ⟨r, by simp [RenderPassDesc.firstExistingAttachment,
        attachmentsNth_eq, hga, hr]⟩
    | some att =>
      exact ⟨some att, by simp [RenderPassDesc.firstExistingAttachment,
        attachmentsNth_eq, hga]⟩

theorem num_samples_isOk (d : RenderPassDesc) (i : Nat) :
    ∃ r, d.num_samples i = .ok r := by
  cases hp : d.subpasses[i]? with
  | none =>
    exact ⟨none, by simp [RenderPassDesc.num_samples, subpassesNth_eq, hp]⟩
  | some p =>
    obtain ⟨r, hr⟩ :=
      firstExistingAttachment_isOk d (p.color_attachments ++ p.depth_stencil.toList)
    cases r with
    | none =>
      exact ⟨none, by simp [RenderPassDesc.num_samples, subpassesNth_eq, hp, hr]⟩
    | some att =>
      exact ⟨some att.samples,
        by simp [RenderPassDesc.num_samples, subpassesNth_eq, hp, hr]⟩

theorem checkLocations_all_in_range (d : RenderPassDesc)
    (p : LayoutPassDescription)
    (hwf : ∀ x ∈ p.color_attachments, x.fst < d.num_attachments)
    (locs : List Nat)
    (hall : ∀ loc ∈ locs, loc < p.color_attachments.length) :
    checkLocations d p locs = .ok true := by
  induction locs with
  | nil => rfl
  | cons loc rest ih =>
    have hloc : loc < p.color_attachments.length := hall loc (by simp)
    obtain ⟨x, hx⟩ : ∃ x, p.color_attachments[loc]? = some x :=
      ⟨_, List.getElem?_eq_getElem hloc⟩
    have hxmem : x ∈ p.color_attachments :=
      List.get?_mem (by rw [List.get?_eq_getElem?]; exact hx)
    obtain ⟨att, hatt⟩ : ∃ att, d.attachments[x.fst]? = some att :=
      ⟨_, List.getElem?_eq_getElem (hwf x hxmem)⟩
    have hrest : checkLocations d p rest = .ok true :=
      ih (fun l hl => hall l (by simp [hl]))
    simp [checkLocations, hx, attachmentsNth_eq, hatt, hrest]

theorem checkLocations_missing_slot (d : RenderPassDesc)
    (p : LayoutPassDescription)
    (hwf : ∀ x ∈ p.color_attachments, x.fst < d.num_attachments)
    (locs : List Nat)
    (hex : ∃ loc ∈ locs, p.color_attachments.length ≤ loc) :
    checkLocations d p locs = .ok false := by
  induction locs with
  | nil => simp at hex
  | cons loc rest ih =>
    cases hg : p.color_attachments[loc]? with
    | none => simp [checkLocations, hg]
    | some x =>
      have hloc : loc < p.color_attachments.length :=
        (List.getElem?_eq_some.mp hg).1
      have hxmem : x ∈ p.color_attachments :=
        List.get?_mem (by rw [List.get?_eq_getElem?]; exact hg)
      obtain ⟨att, hatt⟩ : ∃ att, d.attachments[x.fst]? = some att :=
        ⟨_, List.getElem?_eq_getElem (hwf x hxmem)⟩
      have hex' : ∃ l ∈ rest, p.color_attachments.length ≤ l := by
        obtain ⟨l, hl, hge⟩ := hex
        rcases List.mem_cons.mp hl with h | h
        · subst h; exact absurd hloc (Nat.not_lt.mpr hge)
        · exact ⟨l, h, hge⟩
      simp [checkLocations, hg, attachmentsNth_eq, hatt, ih hex']

/-! Concrete descriptors used as evaluation inputs. -/

/-- A color-class format (stands for e.g. `R8G8B8A8Unorm`). -/
def fmtColor : Format := ⟨0, FormatTy.float⟩

/-- A depth-stencil-class format (stands for e.g. `D24Unorm_S8Uint`). -/
def fmtDepthStencil : Format := ⟨1, FormatTy.depthStencil⟩

/-- A single-sample color attachment. -/
def attColor : LayoutAttachmentDescription :=
  ⟨fmtColor, 1, LoadOp.Clear, StoreOp.Store,
    ImageLayout.ColorAttachmentOptimal, ImageLayout.ColorAttachmentOptimal⟩

/-- A four-sample depth-stencil attachment. -/
def attDS : LayoutAttachmentDescription :=
  ⟨fmtDepthStencil, 4, LoadOp.Clear, StoreOp.DontCare,
    ImageLayout.DepthStencilAttachmentOptimal,
    ImageLayout.DepthStencilAttachmentOptimal⟩

/-- A subpass using the single color attachment and no depth/stencil. -/
def spColorOnly : LayoutPassDescription :=
  ⟨[(0, ImageLayout.ColorAttachmentOptimal)], none, [], [], []⟩

/-- A one-attachment, one-subpass descriptor. -/
def dColorOnly : RenderPassDesc := ⟨[attColor], [spColorOnly], []⟩

/-- A subpass whose only reference is a color attachment index `0` that the
descriptor `dDanglingColor` does not have. -/
def spDanglingColor : LayoutPassDescription :=
  ⟨[(0, ImageLayout.ColorAttachmentOptimal)], none, [], [], []⟩

/-- A descriptor with no attachments whose subpass references attachment
`0`. -/
def dDanglingColor : RenderPassDesc := ⟨[], [spDanglingColor], []⟩

/-- A subpass whose depth/stencil slot references attachment `0` with a
writable layout. -/
def spDanglingDS : LayoutPassDescription :=
  ⟨[], some (0, ImageLayout.DepthStencilAttachmentOptimal), [], [], []⟩

/-- A descriptor with no attachments whose subpass's depth/stencil slot
references attachment `0`. -/
def dDanglingDS : RenderPassDesc := ⟨[], [spDanglingDS], []⟩

/-- A subpass whose depth/stencil slot is in the read-only-optimal layout. -/
def spReadOnlyDS : LayoutPassDescription :=
  ⟨[], some (0, ImageLayout.DepthStencilReadOnlyOptimal), [], [], []⟩

/-- A descriptor with a depth-stencil attachment read read-only by its
subpass. -/
def dReadOnlyDS : RenderPassDesc := ⟨[attDS], [spReadOnlyDS], []⟩

/-- A subpass whose depth/stencil slot is in a writable layout. -/
def spWritableDS : LayoutPassDescription :=
  ⟨[], some (0, ImageLayout.DepthStencilAttachmentOptimal), [], [], []⟩

/-- A descriptor with a depth-stencil attachment written by its subpass. -/
def dWritableDS : RenderPassDesc := ⟨[attDS], [spWritableDS], []⟩

/-- An empty descriptor. -/
def dNoAttachments : RenderPassDesc := ⟨[], [], []⟩

/-- A descriptor with one attachment and no subpasses. -/
def dOneAttachment : RenderPassDesc := ⟨[attColor], [], []⟩

/-- A shader interface declaring one output at location `0`. -/
def shaderOneOutput : List ShaderInterfaceEntry := [⟨0, 1, fmtColor⟩]

/-! Claim theorems. -/

/-- C1: the claim does not hold on the code as written.  The body of
`RenderPassCompatible::is_compatible_with` is an unconditional `return true;`
(the positional pairing loop is commented out behind a `FIXME`), so two
descriptors with unequal attachment counts — which the claim says are never
compatible — are reported compatible.  Evaluated here at a 0-attachment and a
1-attachment descriptor. -/
theorem c1_stub_reports_unequal_counts_compatible :
    dNoAttachments.num_attachments ≠ dOneAttachment.num_attachments ∧
    RenderPassDesc.is_compatible_with dNoAttachments dOneAttachment = true :=
  ⟨by decide, rfl⟩

/-- C2: for every descriptor and every subpass index at or past the subpass
count, each of the seven derived queries returns `None` — no panic and no
default value. -/
theorem c2_out_of_range_queries_return_none (d : RenderPassDesc) (i : Nat)
    (h : d.num_subpasses ≤ i) :
    d.num_color_attachments i = .ok none ∧
    d.num_samples i = .ok none ∧
    d.has_depth_stencil_attachment i = .ok none ∧
    d.has_depth i = .ok none ∧
    d.has_stencil i = .ok none ∧
    d.has_writable_depth i = .ok none ∧
    d.has_writable_stencil i = .ok none := by
  have h' : d.subpasses.length ≤ i := h
  have hp : d.subpasses[i]? = none := List.getElem?_eq_none h'
  refine ⟨?_, ?_, ?_, ?_, ?_, ?_, ?_⟩ <;>
    simp [RenderPassDesc.num_color_attachments, RenderPassDesc.num_samples,
      RenderPassDesc.has_depth_stencil_attachment, RenderPassDesc.has_depth,
      RenderPassDesc.has_stencil, RenderPassDesc.has_writable_depth,
      RenderPassDesc.has_writable_stencil, subpassesNth_eq, hp]

/-- C2 witness: the out-of-range index `5` on the one-subpass descriptor. -/
theorem c2_out_of_range_queries_return_none_witness :
    dColorOnly.num_color_attachments 5 = .ok none ∧
    dColorOnly.num_samples 5 = .ok none ∧
    dColorOnly.has_depth_stencil_attachment 5 = .ok none ∧
    dColorOnly.has_depth 5 = .ok none ∧
    dColorOnly.has_stencil 5 = .ok none ∧
    dColorOnly.has_writable_depth 5 = .ok none ∧
    dColorOnly.has_writable_stencil 5 = .ok none :=
  c2_out_of_range_queries_return_none dColorOnly 5 (by decide)

/-- C8: `Subpass::from(descriptor, id)` returns a handle exactly when `id` is
below the subpass count, and `None` otherwise. -/
theorem c8_from_valid_iff (d : RenderPassDesc) (i : Nat) :
    (i < d.num_subpasses → Subpass.from_ d i = some ⟨d, i⟩) ∧
    (d.num_subpasses ≤ i → Subpass.from_ d i = none) := by
  constructor
  · intro h
    simp [Subpass.from_, h]
  · intro h
    simp [Subpass.from_, Nat.not_lt.mpr h]

/-- C8 witness: the one-subpass descriptor accepts index `0` and rejects
index `3`. -/
theorem c8_from_valid_iff_witness :
    Subpass.from_ dColorOnly 0 = some ⟨dColorOnly, 0⟩ ∧
    Subpass.from_ dColorOnly 3 = none :=
  ⟨(c8_from_valid_iff dColorOnly 0).1 (by decide),
   (c8_from_valid_iff dColorOnly 3).2 (by decide)⟩

/-- C9: a handle built by `Subpass::from(d, i)` reads back `index() = i` and
`render_pass() = d`, and the `Into<(L, u32)>` conversion returns exactly
`(d, i)`. -/
theorem c9_from_roundtrip (d : RenderPassDesc) (i : Nat) (s : Subpass)
    (h : Subpass.from_ d i = some s) :
    s.index = i ∧ s.render_pass = d ∧ s.into = (d, i) := by
  unfold Subpass.from_ at h
  split at h
  · injection h with h
    subst h
    exact ⟨rfl, rfl, rfl⟩
  · exact Option.noConfusion h

/-- C9 witness: the round trip at the one-subpass descriptor and index
`0`. -/
theorem c9_from_roundtrip_witness :
    (Subpass.mk dColorOnly 0).index = 0 ∧
    (Subpass.mk dColorOnly 0).render_pass = dColorOnly ∧
    (Subpass.mk dColorOnly 0).into = (dColorOnly, 0) :=
  c9_from_roundtrip dColorOnly 0 ⟨dColorOnly, 0⟩ (by decide)

/-- C5: when the depth/stencil slot's layout is the read-only-optimal
layout, `has_writable_depth` and `has_writable_stencil` are `Some false`
regardless of the referenced attachment's format class (the attachment is
never even looked up); with any other layout they agree with `has_depth`
and `has_stencil` respectively. -/
theorem c5_writable_readonly_layout (d : RenderPassDesc) (i : Nat)
    (p : LayoutPassDescription) (hp : d.subpasses[i]? = some p) :
    (∀ a, p.depth_stencil = some (a, ImageLayout.DepthStencilReadOnlyOptimal) →
      d.has_writable_depth i = .ok (some false) ∧
      d.has_writable_stencil i = .ok (some false)) ∧
    (∀ a l, p.depth_stencil = some (a, l) →
      l ≠ ImageLayout.DepthStencilReadOnlyOptimal →
      d.has_writable_depth i = d.has_depth i ∧
      d.has_writable_stencil i = d.has_stencil i) := by
  have hn : d.subpassesNth i = .ok (some p) := by rw [subpassesNth_eq, hp]
  constructor
  · intro a hds
    constructor <;>
      simp [RenderPassDesc.has_writable_depth,
        RenderPassDesc.has_writable_stencil, hn, hds]
  · intro a l hds hl
    constructor <;>
      simp [RenderPassDesc.has_writable_depth, RenderPassDesc.has_depth,
        RenderPassDesc.has_writable_stencil, RenderPassDesc.has_stencil,
        hn, hds, hl]

/-- C5 witness: attachment `0` has a depth-stencil-class format, so
`has_depth` holds while `has_writable_depth` is false under the read-only
layout; under the writable layout the writable queries agree with
`has_depth`/`has_stencil`. -/
theorem c5_writable_readonly_layout_witness :
    (dReadOnlyDS.has_writable_depth 0 = .ok (some false) ∧
      dReadOnlyDS.has_writable_stencil 0 = .ok (some false)) ∧
    (dWritableDS.has_writable_depth 0 = dWritableDS.has_depth 0 ∧
      dWritableDS.has_writable_stencil 0 = dWritableDS.has_stencil 0) :=
  ⟨(c5_writable_readonly_layout dReadOnlyDS 0 spReadOnlyDS rfl).1 0 rfl,
   (c5_writable_readonly_layout dWritableDS 0 spWritableDS rfl).2 0
     ImageLayout.DepthStencilAttachmentOptimal rfl (by decide)⟩

/-- C6: `num_samples` walks the subpass's color attachment references and
then its depth/stencil reference, in order; the first reference whose
attachment exists supplies the sample count, and a subpass with neither kind
of reference yields `None`. -/
theorem c6_num_samples_first_attachment (d : RenderPassDesc) (i : Nat)
    (p : LayoutPassDescription) (hp : d.subpasses[i]? = some p) :
    (p.color_attachments = [] → p.depth_stencil = none →
      d.num_samples i = .ok none) ∧
    (∀ a rest att,
      p.color_attachments ++ p.depth_stencil.toList = a :: rest →
      d.attachments[a.fst]? = some att →
      d.num_samples i = .ok (some att.samples)) := by
  have hn : d.subpassesNth i = .ok (some p) := by rw [subpassesNth_eq, hp]
  constructor
  · intro hc hd
    simp [RenderPassDesc.num_samples, hn, hc, hd,
      RenderPassDesc.firstExistingAttachment]
  · intro a rest att hrefs hatt
    have hfa : d.firstExistingAttachment
        (p.color_attachments ++ p.depth_stencil.toList) = .ok (some att) := by
      rw [hrefs]
      simp [RenderPassDesc.firstExistingAttachment, attachmentsNth_eq, hatt]
    simp [RenderPassDesc.num_samples, hn, hfa]

/-- C6 witness: the color-only subpass takes its sample count from the color
attachment, and a subpass with no references yields `None` (exercised on the
out-of-attachments part of `dWritableDS` by a second descriptor). -/
theorem c6_num_samples_first_attachment_witness :
    dColorOnly.num_samples 0 = .ok (some 1) ∧
    dWritableDS.num_samples 0 = .ok (some 4) :=
  ⟨(c6_num_samples_first_attachment dColorOnly 0 spColorOnly rfl).2
      (0, ImageLayout.ColorAttachmentOptimal) [] attColor rfl rfl,
   (c6_num_samples_first_attachment dWritableDS 0 spWritableDS rfl).2
      (0, ImageLayout.DepthStencilAttachmentOptimal) [] attDS rfl rfl⟩

/-- C7: `has_depth_stencil_attachment` returns the pair determined by the
referenced attachment's format class — Depth gives `(true, false)`, Stencil
gives `(false, true)`, DepthStencil gives `(true, true)` — and
`(false, false)` when the subpass has no depth/stencil slot. -/
theorem c7_has_depth_stencil_pair (d : RenderPassDesc) (i : Nat)
    (p : LayoutPassDescription) (hp : d.subpasses[i]? = some p) :
    (p.depth_stencil = none →
      d.has_depth_stencil_attachment i = .ok (some (false, false))) ∧
    (∀ a l att, p.depth_stencil = some (a, l) →
      d.attachments[a]? = some att →
      (att.format.ty = FormatTy.depth →
        d.has_depth_stencil_attachment i = .ok (some (true, false))) ∧
      (att.format.ty = FormatTy.stencil →
        d.has_depth_stencil_attachment i = .ok (some (false, true))) ∧
      (att.format.ty = FormatTy.depthStencil →
        d.has_depth_stencil_attachment i = .ok (some (true, true)))) := by
  have hn : d.subpassesNth i = .ok (some p) := by rw [subpassesNth_eq, hp]
  constructor
  · intro hds
    simp [RenderPassDesc.has_depth_stencil_attachment, hn, hds]
  · intro a l att hds hatt
    have hnA : d.attachmentsNth a = .ok (some att) := by
      rw [attachmentsNth_eq, hatt]
    refine ⟨?_, ?_, ?_⟩ <;> intro hty <;>
      simp [RenderPassDesc.has_depth_stencil_attachment, hn, hds, hnA, hty]

/-- C7 witness: no slot gives `(false, false)`; a depth-stencil-class
attachment gives `(true, true)`. -/
theorem c7_has_depth_stencil_pair_witness :
    dColorOnly.has_depth_stencil_attachment 0 = .ok (some (false, false)) ∧
    dWritableDS.has_depth_stencil_attachment 0 = .ok (some (true, true)) :=
  ⟨(c7_has_depth_stencil_pair dColorOnly 0 spColorOnly rfl).1 rfl,
   ((c7_has_depth_stencil_pair dWritableDS 0 spWritableDS rfl).2 0
      ImageLayout.DepthStencilAttachmentOptimal attDS rfl rfl).2.2 rfl⟩

/-- C3 counterexample: `num_samples` does not fail on a dangling attachment
reference.  `dDanglingColor` has zero attachments while its (in-range)
subpass `0` references color attachment `0`; `num_samples` silently skips the
dangling reference through its `filter_map` and returns `Ok None` instead of
panicking. -/
theorem c3_num_samples_skips_dangling_reference :
    0 < dDanglingColor.num_subpasses ∧
    dDanglingColor.num_attachments = 0 ∧
    dDanglingColor.subpasses[0]? = some spDanglingColor ∧
    (0, ImageLayout.ColorAttachmentOptimal) ∈ spDanglingColor.color_attachments ∧
    dDanglingColor.num_samples 0 = .ok none :=
  ⟨by decide, rfl, rfl, by decide, rfl⟩

/-- C3 amended: the depth/stencil-based queries do fail fatally on a dangling
depth/stencil reference — `has_depth_stencil_attachment`, `has_depth` and
`has_stencil` always, and the writable variants whenever the slot's layout is
not the read-only-optimal layout (that layout short-circuits before the
lookup) — while `num_samples` never panics: it silently skips dangling
references. -/
theorem c3_amended_ds_queries_panic_on_dangling (d : RenderPassDesc) (i : Nat)
    (p : LayoutPassDescription) (hp : d.subpasses[i]? = some p)
    (a : Nat) (l : ImageLayout) (hds : p.depth_stencil = some (a, l))
    (hout : d.num_attachments ≤ a) :
    d.has_depth_stencil_attachment i = .error .unwrapNone ∧
    d.has_depth i = .error .unwrapNone ∧
    d.has_stencil i = .error .unwrapNone ∧
    (l ≠ ImageLayout.DepthStencilReadOnlyOptimal →
      d.has_writable_depth i = .error .unwrapNone ∧
      d.has_writable_stencil i = .error .unwrapNone) ∧
    (∀ j, ∃ r, d.num_samples j = .ok r) := by
  have hn : d.subpassesNth i = .ok (some p) := by rw [subpassesNth_eq, hp]
  have hout' : d.attachments.length ≤ a := hout
  have hga : d.attachments[a]? = none := List.getElem?_eq_none hout'
  have hnA : d.attachmentsNth a = .ok none := by rw [attachmentsNth_eq, hga]
  refine ⟨?_, ?_, ?_, ?_, num_samples_isOk d⟩
  · simp [RenderPassDesc.has_depth_stencil_attachment, hn, hds, hnA]
  · simp [RenderPassDesc.has_depth, hn, hds, hnA]
  · simp [RenderPassDesc.has_stencil, hn, hds, hnA]
  · intro hl
    constructor
    · simp [RenderPassDesc.has_writable_depth, hn, hds, hnA, hl]
    · simp [RenderPassDesc.has_writable_stencil, hn, hds, hnA, hl]

/-- C3 amended witness: the descriptor whose depth/stencil slot references
nonexistent attachment `0` in a writable layout. -/
theorem c3_amended_ds_queries_panic_on_dangling_witness :
    dDanglingDS.has_depth_stencil_attachment 0 = .error .unwrapNone ∧
    dDanglingDS.has_depth 0 = .error .unwrapNone ∧
    dDanglingDS.has_stencil 0 = .error .unwrapNone ∧
    dDanglingDS.has_writable_depth 0 = .error .unwrapNone ∧
    dDanglingDS.has_writable_stencil 0 = .error .unwrapNone ∧
    (∃ r, dDanglingDS.num_samples 0 = .ok r) := by
  have h := c3_amended_ds_queries_panic_on_dangling dDanglingDS 0 spDanglingDS
    rfl 0 ImageLayout.DepthStencilAttachmentOptimal rfl (by decide)
  have hw := h.2.2.2.1 (by decide)
  exact ⟨h.1, h.2.1, h.2.2.1, hw.1, hw.2, h.2.2.2.2 0⟩

/-- C4 counterexample: the claim says the check returns `true` whenever the
subpass is in range and every declared output location has a color slot, but
with a dangling color-attachment reference the source instead panics on its
`unwrap()`: subpass `0` of `dDanglingColor` is in range and location `0` has
a color slot, yet the check neither returns `true` nor `false`. -/
theorem c4_panics_on_dangling_color_reference :
    0 < dDanglingColor.num_subpasses ∧
    (∀ loc ∈ declaredLocations shaderOneOutput,
      loc < spDanglingColor.color_attachments.length) ∧
    dDanglingColor.subpass_is_compatible_with 0 shaderOneOutput =
      .error .unwrapNone :=
  ⟨by decide, by decide, rfl⟩

/-- C4 amended: provided every color-attachment reference of the subpass
points to an existing attachment, the shader-interface check returns `false`
when the subpass index is out of range or some declared output location has
no color-attachment slot, and `true` otherwise; format agreement is not
checked.  (Without that proviso the `unwrap()` on a dangling reference
panics.) -/
theorem c4_amended_compatible_iff_slots_exist (d : RenderPassDesc) (i : Nat)
    (elements : List ShaderInterfaceEntry)
    (hwf : ∀ p, d.subpasses[i]? = some p →
      ∀ x ∈ p.color_attachments, x.fst < d.num_attachments) :
    (d.num_subpasses ≤ i →
      d.subpass_is_compatible_with i elements = .ok false) ∧
    (∀ p, d.subpasses[i]? = some p →
      ((∀ loc ∈ declaredLocations elements,
          loc < p.color_attachments.length) →
        d.subpass_is_compatible_with i elements = .ok true) ∧
      ((∃ loc ∈ declaredLocations elements,
          p.color_attachments.length ≤ loc) →
        d.subpass_is_compatible_with i elements = .ok false)) := by
  constructor
  · intro h
    have h' : d.subpasses.length ≤ i := h
    have hp : d.subpasses[i]? = none := List.getElem?_eq_none h'
    simp [RenderPassDesc.subpass_is_compatible_with, subpassesNth_eq, hp]
  · intro p hp
    have hn : d.subpassesNth i = .ok (some p) := by rw [subpassesNth_eq, hp]
    constructor
    · intro hall
      simp [RenderPassDesc.subpass_is_compatible_with, hn,
        checkLocations_all_in_range d p (hwf p hp) _ hall]
    · intro hex
      simp [RenderPassDesc.subpass_is_compatible_with, hn,
        checkLocations_missing_slot d p (hwf p hp) _ hex]

/-- C4 amended witness: on the well-formed one-color-attachment descriptor
the single declared output at location `0` is accepted, and the out-of-range
subpass index `2` is rejected with `false`. -/
theorem c4_amended_compatible_iff_slots_exist_witness :
    dColorOnly.subpass_is_compatible_with 0 shaderOneOutput = .ok true ∧
    dColorOnly.subpass_is_compatible_with 2 shaderOneOutput = .ok false := by
  have hwf0 : ∀ p, dColorOnly.subpasses[0]? = some p →
      ∀ x ∈ p.color_attachments, x.fst < dColorOnly.num_attachments := by
    intro p hp
    obtain rfl : spColorOnly = p := Option.some.inj hp
    intro x hx
    simp [spColorOnly] at hx
    subst hx
    decide
  have hwf2 : ∀ p, dColorOnly.subpasses[2]? = some p →
      ∀ x ∈ p.color_attachments, x.fst < dColorOnly.num_attachments := by
    intro p hp
    exact Option.noConfusion hp
  exact ⟨((c4_amended_compatible_iff_slots_exist dColorOnly 0 shaderOneOutput
      hwf0).2 spColorOnly rfl).1 (by decide),
    (c4_amended_compatible_iff_slots_exist dColorOnly 2 shaderOneOutput
      hwf2).1 (by decide)⟩

/-- A well-formed descriptor in the sense of claim C10: every subpass's
depth/stencil slot, when present, references an existing attachment whose
format class is depth, stencil, or depth-stencil.  (The accessor contract —
`subpass(n)` / `attachment(n)` are `Some` below the counts — holds by
construction of the list-backed descriptor.) -/
def WellFormedDS (d : RenderPassDesc) : Prop :=
  ∀ p ∈ d.subpasses, ∀ a l, p.depth_stencil = some (a, l) →
    ∃ att, d.attachments[a]? = some att ∧
      (att.format.ty = FormatTy.depth ∨ att.format.ty = FormatTy.stencil ∨
        att.format.ty = FormatTy.depthStencil)

/-- C10: over a well-formed descriptor, every handle produced by
`Subpass::from` (so its index is in range) can run each derived accessor
without reaching an `unwrap`/panic branch: each returns an `Ok` value. -/
theorem c10_valid_handle_accessors_never_panic (s : Subpass)
    (hvalid : s.subpass_id < s.render_pass.num_subpasses)
    (hwf : WellFormedDS s.render_pass) :
    (∃ n, s.num_color_attachments = .ok n) ∧
    (∃ b, s.has_depth = .ok b) ∧
    (∃ b, s.has_writable_depth = .ok b) ∧
    (∃ b, s.has_stencil = .ok b) ∧
    (∃ b, s.has_writable_stencil = .ok b) ∧
    (∃ b, s.has_color_or_depth_stencil_attachment = .ok b) := by
  obtain ⟨p, hp⟩ : ∃ p, s.render_pass.subpasses[s.subpass_id]? = some p :=
    ⟨_, List.getElem?_eq_getElem hvalid⟩
  have hn : s.render_pass.subpassesNth s.subpass_id = .ok (some p) := by
    rw [subpassesNth_eq, hp]
  have hpmem : p ∈ s.render_pass.subpasses :=
    List.get?_mem (by rw [List.get?_eq_getElem?]; exact hp)
  have hds := hwf p hpmem
  have hnc : s.num_color_attachments = .ok p.color_attachments.length := by
    simp [Subpass.num_color_attachments, RenderPassDesc.num_color_attachments,
      hn, unwrapQ]
  have hhd : ∃ b, s.render_pass.has_depth s.subpass_id = .ok (some b) := by
    cases hdsc : p.depth_stencil with
    | none => exact ⟨false, by simp [RenderPassDesc.has_depth, hn, hdsc]⟩
    | some al =>
      obtain ⟨a, l⟩ := al
      obtain ⟨att, hatt, hty⟩ := hds a l hdsc
      have hnA : s.render_pass.attachmentsNth a = .ok (some att) := by
        rw [attachmentsNth_eq, hatt]
      rcases hty with h | h | h
      · exact ⟨true, by simp [RenderPassDesc.has_depth, hn, hdsc, hnA, h]⟩
      · exact ⟨false, by simp [RenderPassDesc.has_depth, hn, hdsc, hnA, h]⟩
      · exact ⟨true, by simp [RenderPassDesc.has_depth, hn, hdsc, hnA, h]⟩
  have hhs : ∃ b, s.render_pass.has_stencil s.subpass_id = .ok (some b) := by
    cases hdsc : p.depth_stencil with
    | none => exact ⟨false, by simp [RenderPassDesc.has_stencil, hn, hdsc]⟩
    | some al =>
      obtain ⟨a, l⟩ := al
      obtain ⟨att, hatt, hty⟩ := hds a l hdsc
      have hnA : s.render_pass.attachmentsNth a = .ok (some att) := by
        rw [attachmentsNth_eq, hatt]
      rcases hty with h | h | h
      · exact ⟨false, by simp [RenderPassDesc.has_stencil, hn, hdsc, hnA, h]⟩
      · exact ⟨true, by simp [RenderPassDesc.has_stencil, hn, hdsc, hnA, h]⟩
      · exact ⟨true, by simp [RenderPassDesc.has_stencil, hn, hdsc, hnA, h]⟩
  have hhwd : ∃ b, s.render_pass.has_writable_depth s.subpass_id
      = .ok (some b) := by
    cases hdsc : p.depth_stencil with
    | none =>
      exact ⟨false, by simp [RenderPassDesc.has_writable_depth, hn, hdsc]⟩
    | some al =>
      obtain ⟨a, l⟩ := al
      by_cases hl : l = ImageLayout.DepthStencilReadOnlyOptimal
      · exact ⟨false,
          by simp [RenderPassDesc.has_writable_depth, hn, hdsc, hl]⟩
      · obtain ⟨att, hatt, hty⟩ := hds a l hdsc
        have hnA : s.render_pass.attachmentsNth a = .ok (some att) := by
          rw [attachmentsNth_eq, hatt]
        rcases hty with h | h | h
        · exact ⟨true,
            by simp [RenderPassDesc.has_writable_depth, hn, hdsc, hl, hnA, h]⟩
        · exact ⟨false,
            by simp [RenderPassDesc.has_writable_depth, hn, hdsc, hl, hnA, h]⟩
        · exact ⟨true,
            by simp [RenderPassDesc.has_writable_depth, hn, hdsc, hl, hnA, h]⟩
  have hhws : ∃ b, s.render_pass.has_writable_stencil s.subpass_id
      = .ok (some b) := by
    cases hdsc : p.depth_stencil with
    | none =>
      exact ⟨false, by simp [RenderPassDesc.has_writable_stencil, hn, hdsc]⟩
    | some al =>
      obtain ⟨a, l⟩ := al
      by_cases hl : l = ImageLayout.DepthStencilReadOnlyOptimal
      · exact ⟨false,
          by simp [RenderPassDesc.has_writable_stencil, hn, hdsc, hl]⟩
      · obtain ⟨att, hatt, hty⟩ := hds a l hdsc
        have hnA : s.render_pass.attachmentsNth a = .ok (some att) := by
          rw [attachmentsNth_eq, hatt]
        rcases hty with h | h | h
        · exact ⟨false,
            by simp [RenderPassDesc.has_writable_stencil, hn, hdsc, hl, hnA, h]⟩
        · exact ⟨true,
            by simp [RenderPassDesc.has_writable_stencil, hn, hdsc, hl, hnA, h]⟩
        · exact ⟨true,
            by simp [RenderPassDesc.has_writable_stencil, hn, hdsc, hl, hnA, h]⟩
  have hdsa : ∃ v, s.render_pass.has_depth_stencil_attachment s.subpass_id
      = .ok (some v) := by
    cases hdsc : p.depth_stencil with
    | none =>
      exact ⟨(false, false),
        by simp [RenderPassDesc.has_depth_stencil_attachment, hn, hdsc]⟩
    | some al =>
      obtain ⟨a, l⟩ := al
      obtain ⟨att, hatt, hty⟩ := hds a l hdsc
      have hnA : s.render_pass.attachmentsNth a = .ok (some att) := by
        rw [attachmentsNth_eq, hatt]
      rcases hty with h | h | h
      · exact ⟨(true, false),
          by simp [RenderPassDesc.has_depth_stencil_attachment, hn, hdsc, hnA, h]⟩
      · exact ⟨(false, true),
          by simp [RenderPassDesc.has_depth_stencil_attachment, hn, hdsc, hnA, h]⟩
      · exact ⟨(true, true),
          by simp [RenderPassDesc.has_depth_stencil_attachment, hn, hdsc, hnA, h]⟩
  obtain ⟨bd, hbd⟩ := hhd
  obtain ⟨bs, hbs⟩ := hhs
  obtain ⟨bwd, hbwd⟩ := hhwd
  obtain ⟨bws, hbws⟩ := hhws
  obtain ⟨pr, hpr⟩ := hdsa
  have hco : ∃ b, s.has_color_or_depth_stencil_attachment = .ok b := by
    by_cases hc : p.color_attachments.length ≥ 1
    · exact ⟨true,
        by simp [Subpass.has_color_or_depth_stencil_attachment, hnc, hc]⟩
    · refine ⟨decide (pr ≠ (false, false)), ?_⟩
      simp [Subpass.has_color_or_depth_stencil_attachment, hnc, hc, hpr,
        unwrapQ]
  refine ⟨⟨_, hnc⟩, ⟨bd, ?_⟩, ⟨bwd, ?_⟩, ⟨bs, ?_⟩, ⟨bws, ?_⟩, hco⟩
  · simp [Subpass.has_depth, hbd, unwrapQ]
  · simp [Subpass.has_writable_depth, hbwd, unwrapQ]
  · simp [Subpass.has_stencil, hbs, unwrapQ]
  · simp [Subpass.has_writable_stencil, hbws, unwrapQ]

/-- C10 witness: the handle on subpass `0` of the well-formed depth-stencil
descriptor. -/
theorem c10_valid_handle_accessors_never_panic_witness :
    (∃ n, (Subpass.mk dWritableDS 0).num_color_attachments = .ok n) ∧
    (∃ b, (Subpass.mk dWritableDS 0).has_depth = .ok b) ∧
    (∃ b, (Subpass.mk dWritableDS 0).has_writable_depth = .ok b) ∧
    (∃ b, (Subpass.mk dWritableDS 0).has_stencil = .ok b) ∧
    (∃ b, (Subpass.mk dWritableDS 0).has_writable_stencil = .ok b) ∧
    (∃ b, (Subpass.mk dWritableDS 0).has_color_or_depth_stencil_attachment
      = .ok b) := by
  refine c10_valid_handle_accessors_never_panic ⟨dWritableDS, 0⟩ (by decide) ?_
  intro p hpmem a l hds
  obtain rfl : p = spWritableDS := by simpa [dWritableDS] using hpmem
  simp [spWritableDS] at hds
  obtain ⟨rfl, rfl⟩ := hds
  exact ⟨attDS, rfl, Or.inr (Or.inr rfl)⟩

end Vulkano
